import Mathlib

/-!
A shallow embedding of `src/mzy-repack.py` (a two-step batch conversion
helper: Calibre-based unpack of a .mobi into numbered images, then optional
KCC-based repack of the image folder) and proofs of its specified properties.

External effects (PATH lookup, subprocess outcomes, filesystem probes) are
abstracted into environment records; the script's own logic (path
manipulation, extension filtering, sorting, sequential renaming, message
printing, the per-file loop) is translated function by function.
-/

namespace MzyRepack

/-! ## Python string and `pathlib` helpers

`pyLower` models `str.lower` (ASCII case mapping, which decides all the
extension comparisons below), `pyEndsWith` models `str.endswith`,
`lastComponent`/`pySuffix`/`pyStem` model `pathlib.PurePath.name`,
`.suffix` and `.stem` of a path given as a string with `/` separators. -/

def pyLower (s : String) : String := String.mk (s.data.map Char.toLower)

def pyEndsWith (s suf : String) : Bool := List.isSuffixOf suf.data s.data

/-- `f.lower().endswith(('.jpg', '.jpeg', '.png', '.gif'))` from line 120. -/
def isImageName (f : String) : Bool :=
  pyEndsWith (pyLower f) ".jpg" || pyEndsWith (pyLower f) ".jpeg" ||
  pyEndsWith (pyLower f) ".png" || pyEndsWith (pyLower f) ".gif"

/-- Split a character list at `/`, keeping empty pieces. -/
def splitSlashAux : List Char → List Char → List String
  | [], acc => [String.mk acc.reverse]
  | c :: cs, acc =>
    if c = '/' then String.mk acc.reverse :: splitSlashAux cs []
    else splitSlashAux cs (c :: acc)

/-- Final nonempty `/`-separated component of a path string
(`pathlib` drops empty components), i.e. `PurePath(s).name`. -/
def lastComponent (s : String) : String :=
  (((splitSlashAux s.data []).filter (fun t => t ≠ "")).getLast?).getD ""

/-- Index of the last `.` in a character list (`name.rfind\x27.\x27`). -/
def lastDotIdx (cs : List Char) : Option Nat :=
  ((List.range cs.length).filter (fun i => cs.getD i ' ' = '.')).getLast?

/-- `PurePath` suffix logic on a *name*: `name[i:]` for `i = name.rfind(".")`
when `0 < i < len(name) - 1`, else the empty suffix. -/
def suffixChars (cs : List Char) : List Char :=
  match lastDotIdx cs with
  | none => []
  | some i => if 0 < i ∧ i < cs.length - 1 then cs.drop i else []

/-- `PurePath(s).suffix`. -/
def pySuffix (s : String) : String := String.mk (suffixChars (lastComponent s).data)

/-- `PurePath(s).stem`: the name with its suffix removed. -/
def pyStem (s : String) : String :=
  let name := (lastComponent s).data
  String.mk (name.take (name.length - (suffixChars name).length))

/-- Paths are modelled as their nonempty components; `str(path)` joins
them with `/`. -/
abbrev PyPath := List String

def pstr (p : PyPath) : String := String.intercalate "/" p

/-- `path.name`. -/
def pname (p : PyPath) : String := (p.getLast?).getD ""

/-- `path.parent`. -/
def pparent (p : PyPath) : PyPath := p.dropLast

/-- `f"\x7bi:04d\x7d"`: decimal, zero-padded on the left to width 4. -/
def pad4 (i : Nat) : String :=
  let s := toString i
  String.mk (List.replicate (4 - s.length) '0') ++ s

/-! ## The intermediate zip archive -/

structure ZipEntry where
  name : String
  data : List Nat
deriving DecidableEq

/-- `zip_ref.namelist()`. -/
def namelist (es : List ZipEntry) : List String := es.map (fun e => e.name)

/-- `zip_ref.read(n)`: `ZipFile` keeps a name-to-info dictionary in which a
later entry overwrites an earlier one of the same name, so reading returns
the data of the last entry called `n`. -/
def zipRead (es : List ZipEntry) (n : String) : List Nat :=
  (((es.reverse.find? (fun e => e.name == n))).map (fun e => e.data)).getD []

/-- Outcome of `ebook-convert <mobi> <temp>/converted.zip` as observed by the
script: the subprocess raises (non-zero exit or otherwise), or it leaves an
artifact that `zipfile.ZipFile` rejects with `BadZipFile`, or a readable zip
with the given entries. -/
inductive ConvertOutcome where
  | fail
  | badZip
  | zip (entries : List ZipEntry)
deriving DecidableEq

/-! ## Printed diagnostics -/

inductive Msg where
  | fatalNoEbookConvert
  | outputDirCreated
  | callingCalibre
  | calibreOk
  | calibreFailed
  | extracting
  | noImagesWarning
  | extractOk
  | badZipError
  | repackHeader
  | fatalNoKcc
  | kccDetected
  | kccSuccess
  | kccMissingOutputWarning
  | kccCalledProcessError
  | kccUnknownError
deriving DecidableEq

/-! ## Filesystem model for the output directory

The contents of the output image directory are an association list from
file name to file bytes; `open(dest, "wb")` truncates and rewrites. -/

abbrev FS := List (String × List Nat)

def writeFileFS (fs : FS) (n : String) (d : List Nat) : FS :=
  (fs.filter (fun p => p.1 ≠ n)) ++ [(n, d)]

/-! ## `unpack_comic_with_calibre` -/

structure UnpackEnv where
  ebookConvertOnPath : Bool
  mkdirOk : Bool
  convert : ConvertOutcome
deriving DecidableEq

structure UnpackOutput where
  result : Option PyPath
  outDirExists : Bool
  outDir : FS
  tempFiles : List String
  writes : List (String × List Nat)
  messages : List Msg
deriving DecidableEq

/-- Lexicographic-by-code-point comparison of character lists: exactly
Python's `<=` on `str` restricted to the underlying code points. -/
def lexLe : List Char → List Char → Bool
  | [], _ => true
  | _ :: _, [] => false
  | a :: as, b :: bs =>
    if a.toNat < b.toNat then true
    else if b.toNat < a.toNat then false
    else lexLe as bs

def strLe (a b : String) : Bool := lexLe a.data b.data

/-- Python's `<=` on strings, as a proposition. -/
def strLeProp (a b : String) : Prop := strLe a b = true

instance : DecidableRel strLeProp :=
  fun a b => inferInstanceAs (Decidable (strLe a b = true))

/-- `sorted(image_files)`: Python sorts strings lexicographically by code
point; on a total order with identical duplicates any sort is the unique
sorted permutation, so insertion sort by `strLeProp` computes it. -/
def sortedNames (l : List String) : List String :=
  List.insertionSort strLeProp l

/-- `output_dir = mobi_path.parent / mobi_path.stem` (line 99). -/
def outputDirOf (mobi_path : PyPath) : PyPath :=
  pparent mobi_path ++ [pyStem (pname mobi_path)]

/-- The `for i, image_file_in_zip in enumerate(sorted(image_files), 1)` loop
(lines 125-130), threading the output directory contents and recording each
write `(dest_filename, image_data)` in order. -/
def extractLoop (es : List ZipEntry) : List String → Nat → FS → FS × List (String × List Nat)
  | [], _, fs => (fs, [])
  | f :: rest, i, fs =>
    let image_data := zipRead es f
    let dest_filename := pad4 i ++ pySuffix f
    let next := extractLoop es rest (i + 1) (writeFileFS fs dest_filename image_data)
    (next.1, (dest_filename, image_data) :: next.2)

/-- `with tempfile.TemporaryDirectory() as temp_dir:` — on every exit from
the block, including early `return`s, the scoped temporary directory and
everything inside it is deleted. -/
def tempScope (o : UnpackOutput) : UnpackOutput := { o with tempFiles := [] }

def unpack_comic_with_calibre (env : UnpackEnv) (mobi_path : PyPath)
    (dirExists0 : Bool) (fs0 : FS) : UnpackOutput :=
  if env.ebookConvertOnPath = false then
    { result := none, outDirExists := dirExists0, outDir := fs0, tempFiles := [],
      writes := [], messages := [Msg.fatalNoEbookConvert] }
  else
    -- output_dir.mkdir(parents=True, exist_ok=True); `except OSError: return None`
    if env.mkdirOk = false then
      { result := none, outDirExists := dirExists0, outDir := fs0, tempFiles := [],
        writes := [], messages := [] }
    else
      tempScope (
        match env.convert with
        | ConvertOutcome.fail =>
          { result := none, outDirExists := true, outDir := fs0, tempFiles := [],
            writes := [],
            messages := [Msg.outputDirCreated, Msg.callingCalibre, Msg.calibreFailed] }
        | ConvertOutcome.badZip =>
          { result := none, outDirExists := true, outDir := fs0,
            tempFiles := ["converted.zip"], writes := [],
            messages := [Msg.outputDirCreated, Msg.callingCalibre, Msg.calibreOk,
                         Msg.extracting, Msg.badZipError] }
        | ConvertOutcome.zip entries =>
          let image_files := (namelist entries).filter (fun f => isImageName f)
          if image_files.isEmpty then
            { result := none, outDirExists := true, outDir := fs0,
              tempFiles := ["converted.zip"], writes := [],
              messages := [Msg.outputDirCreated, Msg.callingCalibre, Msg.calibreOk,
                           Msg.extracting, Msg.noImagesWarning] }
          else
            let r := extractLoop entries (sortedNames image_files) 1 fs0
            { result := some (outputDirOf mobi_path), outDirExists := true,
              outDir := r.1, tempFiles := ["converted.zip"], writes := r.2,
              messages := [Msg.outputDirCreated, Msg.callingCalibre, Msg.calibreOk,
                           Msg.extracting, Msg.extractOk] })

/-! ## `repack_with_kcc` -/

/-- Configuration constants from the user-settings block (lines 16-22). -/
def KCC_DEVICE_PROFILE : String := "KPW5"

def REPACK_AFTER_UNPACK : Bool := true

def KCC_EXE_FILENAME : String := "kcc-c2e.exe"

/-- Outcome of `subprocess.run(command, check=True, ...)` for KCC: normal
return, `CalledProcessError` (non-zero exit), or any other exception. -/
inductive KccRunOutcome where
  | success
  | calledProcessError
  | otherError
deriving DecidableEq

/-- Environment of the repack step: the directory containing the script,
the `Path.is_file()` probe (used for the KCC executable) and the
`Path.exists()` probe (used for the expected `.mobi`), both keyed by the
path's string form, and the subprocess outcome. -/
structure RepackEnv where
  scriptDir : PyPath
  isFileProbe : String → Bool
  run : KccRunOutcome
  existsProbe : String → Bool

structure RepackResult where
  invoked : Option (List String)
  messages : List Msg
deriving DecidableEq

/-- `kcc_path = script_dir / KCC_EXE_FILENAME` (line 37). -/
def kccPathOf (env : RepackEnv) : PyPath := env.scriptDir ++ [KCC_EXE_FILENAME]

def repack_with_kcc (env : RepackEnv) (image_folder_path : PyPath) : RepackResult :=
  if env.isFileProbe (pstr (kccPathOf env)) = false then
    { invoked := none, messages := [Msg.repackHeader, Msg.fatalNoKcc] }
  else
    let output_mobi_path := pparent image_folder_path
    let book_title := pname image_folder_path
    let command :=
      [pstr (kccPathOf env),
       "-p", KCC_DEVICE_PROFILE,
       "-m",
       "--manga-style",
       "-t", book_title,
       "-o", pstr output_mobi_path,
       pstr image_folder_path]
    match env.run with
    | KccRunOutcome.success =>
      let final_file_name := book_title ++ ".mobi"
      let final_file_path := output_mobi_path ++ [final_file_name]
      if env.existsProbe (pstr final_file_path) then
        { invoked := some command,
          messages := [Msg.repackHeader, Msg.kccDetected, Msg.kccSuccess] }
      else
        { invoked := some command,
          messages := [Msg.repackHeader, Msg.kccDetected, Msg.kccMissingOutputWarning] }
    | KccRunOutcome.calledProcessError =>
      { invoked := some command,
        messages := [Msg.repackHeader, Msg.kccDetected, Msg.kccCalledProcessError] }
    | KccRunOutcome.otherError =>
      { invoked := some command,
        messages := [Msg.repackHeader, Msg.kccDetected, Msg.kccUnknownError] }

/-! ## The `__main__` per-file loop (lines 157-165) -/

/-- Everything one iteration of the loop depends on: the input path and the
environments and initial output-directory state its two steps observe. -/
structure FileCtx where
  path : PyPath
  uenv : UnpackEnv
  dirExists0 : Bool
  fs0 : FS
  renv : RepackEnv

structure FileReport where
  unpackOut : UnpackOutput
  repackOut : Option RepackResult

/-- One loop iteration: `unpacked_folder = unpack_comic_with_calibre(...)`;
`if unpacked_folder and REPACK_AFTER_UNPACK: repack_with_kcc(unpacked_folder)`. -/
def processFile (c : FileCtx) : FileReport :=
  let u := unpack_comic_with_calibre c.uenv c.path c.dirExists0 c.fs0
  match u.result with
  | some unpacked_folder =>
    if REPACK_AFTER_UNPACK then
      { unpackOut := u, repackOut := some (repack_with_kcc c.renv unpacked_folder) }
    else
      { unpackOut := u, repackOut := none }
  | none => { unpackOut := u, repackOut := none }

/-- `for i, file_path_str in enumerate(files_to_process, 1): ...` — each
file is processed independently, in order. -/
def mainLoop (files : List FileCtx) : List FileReport := files.map processFile

/-! ## Order lemmas for the Python string order -/

theorem lexLe_total : ∀ as bs : List Char, lexLe as bs = true ∨ lexLe bs as = true := by
  intro as
  induction as with
  | nil => intro bs; left; rfl
  | cons a as ih =>
    intro bs
    cases bs with
    | nil => right; rfl
    | cons b bs =>
      rcases Nat.lt_trichotomy a.toNat b.toNat with h | h | h
      · left; simp [lexLe, h]
      · have h1 : ¬ a.toNat < b.toNat := by omega
        have h2 : ¬ b.toNat < a.toNat := by omega
        rcases ih bs with hh | hh
        · left; simp [lexLe, h1, h2, hh]
        · right; simp [lexLe, h1, h2, hh]
      · have h1 : ¬ a.toNat < b.toNat := by omega
        right; simp [lexLe, h]

theorem lexLe_trans : ∀ as bs cs : List Char,
    lexLe as bs = true → lexLe bs cs = true → lexLe as cs = true := by
  intro as
  induction as with
  | nil => intro bs cs _ _; rfl
  | cons a as ih =>
    intro bs cs h1 h2
    cases bs with
    | nil => simp [lexLe] at h1
    | cons b bs =>
      cases cs with
      | nil => simp [lexLe] at h2
      | cons c cs =>
        by_cases hab : a.toNat < b.toNat <;> by_cases hba : b.toNat < a.toNat <;>
          by_cases hbc : b.toNat < c.toNat <;> by_cases hcb : c.toNat < b.toNat <;>
          simp [lexLe, hab, hba, hbc, hcb] at h1 h2 ⊢ <;>
          first
            | omega
            | (have hac : a.toNat < c.toNat := by omega
               simp [hac])
            | (have hac : ¬ a.toNat < c.toNat := by omega
               have hca : ¬ c.toNat < a.toNat := by omega
               simp [hac, hca]
               first
                 | exact ih bs cs h1 h2
                 | exact ⟨by omega, ih bs cs h1 h2⟩)

instance : IsTotal String strLeProp := ⟨fun a b => lexLe_total a.data b.data⟩

instance : IsTrans String strLeProp := ⟨fun a b c => lexLe_trans a.data b.data c.data⟩

/-! ## Lemmas about the extraction loop -/

/-- The sequence of `(dest_filename, image_data)` pairs the loop writes,
stated directly from the spec's words: the `j`-th filtered name in sorted
order is written to a 4-digit zero-padded sequence number with the entry's
original suffix appended, holding that entry's bytes. -/
def seqWrites (es : List ZipEntry) : List String → Nat → List (String × List Nat)
  | [], _ => []
  | f :: rest, i => (pad4 i ++ pySuffix f, zipRead es f) :: seqWrites es rest (i + 1)

theorem extractLoop_snd (es : List ZipEntry) :
    ∀ (l : List String) (i : Nat) (fs : FS),
      (extractLoop es l i fs).2 = seqWrites es l i := by
  intro l
  induction l with
  | nil => intro i fs; rfl
  | cons f rest ih => intro i fs; simp [extractLoop, seqWrites, ih]

theorem seqWrites_length (es : List ZipEntry) :
    ∀ (l : List String) (i : Nat), (seqWrites es l i).length = l.length := by
  intro l
  induction l with
  | nil => intro i; rfl
  | cons f rest ih => intro i; simp [seqWrites, ih]

theorem seqWrites_getD (es : List ZipEntry) :
    ∀ (l : List String) (i j : Nat), j < l.length →
      (seqWrites es l i).getD j ("", []) =
        (pad4 (i + j) ++ pySuffix (l.getD j ""), zipRead es (l.getD j "")) := by
  intro l
  induction l with
  | nil => intro i j h; simp at h
  | cons f rest ih =>
    intro i j h
    cases j with
    | zero => simp [seqWrites]
    | succ j =>
      have hj : j < rest.length := by simpa using h
      have hstep : i + (j + 1) = (i + 1) + j := by omega
      simp only [seqWrites, List.getD_cons_succ]
      rw [ih (i + 1) j hj, hstep]

theorem mem_writeFileFS (fs : FS) (n m : String) (d d' : List Nat)
    (h : (n, d) ∈ fs) (hne : n ≠ m) : (n, d) ∈ writeFileFS fs m d' := by
  unfold writeFileFS
  refine List.mem_append_left _ ?_
  rw [List.mem_filter]
  exact ⟨h, by simpa using hne⟩

theorem extractLoop_preserves (es : List ZipEntry) :
    ∀ (l : List String) (i : Nat) (fs : FS) (n : String) (d : List Nat),
      (n, d) ∈ fs → n ∉ (extractLoop es l i fs).2.map Prod.fst →
      (n, d) ∈ (extractLoop es l i fs).1 := by
  intro l
  induction l with
  | nil => intro i fs n d h _; simpa [extractLoop] using h
  | cons f rest ih =>
    intro i fs n d hmem hnot
    simp only [extractLoop, List.map_cons, List.mem_cons] at hnot ⊢
    push_neg at hnot
    exact ih (i + 1) (writeFileFS fs (pad4 i ++ pySuffix f) (zipRead es f)) n d
      (mem_writeFileFS _ _ _ _ _ hmem hnot.1) hnot.2

/-! ## Claim theorems -/

/-- C1: for an intermediate archive whose entries include `N ≥ 1` names
matching the recognized image extensions (case-insensitively) and any number
of non-matching names, the unpack step succeeds and performs exactly `N`
writes into the output directory, the `i`-th (1-based) to the 4-digit
zero-padded name `pad4 i` carrying the original entry's suffix, in
lexicographic (code-point) order of the original entry names; non-matching
entries are never written. -/
theorem unpack_writes_sorted_numbered_images (es : List ZipEntry) (mobi : PyPath)
    (d0 : Bool) (fs0 : FS) (imgs : List String) (out : UnpackOutput)
    (himgs : imgs = (namelist es).filter (fun f => isImageName f))
    (hN : 0 < imgs.length)
    (hout : out = unpack_comic_with_calibre ⟨true, true, ConvertOutcome.zip es⟩ mobi d0 fs0) :
    out.result = some (outputDirOf mobi) ∧
    out.writes = seqWrites es (sortedNames imgs) 1 ∧
    out.writes.length = imgs.length ∧
    List.Perm (sortedNames imgs) imgs ∧
    List.Sorted strLeProp (sortedNames imgs) ∧
    ∀ i, i < out.writes.length →
      out.writes.getD i ("", []) =
        (pad4 (i + 1) ++ pySuffix ((sortedNames imgs).getD i ""),
         zipRead es ((sortedNames imgs).getD i "")) := by
  subst himgs
  have hne : ((namelist es).filter (fun f => isImageName f)).isEmpty = false := by
    cases hcase : (namelist es).filter (fun f => isImageName f) with
    | nil => rw [hcase] at hN; simp at hN
    | cons x xs => simp [hcase]
  have hrec : unpack_comic_with_calibre ⟨true, true, ConvertOutcome.zip es⟩ mobi d0 fs0 =
      { result := some (outputDirOf mobi), outDirExists := true,
        outDir := (extractLoop es
          (sortedNames ((namelist es).filter (fun f => isImageName f))) 1 fs0).1,
        tempFiles := [],
        writes := (extractLoop es
          (sortedNames ((namelist es).filter (fun f => isImageName f))) 1 fs0).2,
        messages := [Msg.outputDirCreated, Msg.callingCalibre, Msg.calibreOk,
                     Msg.extracting, Msg.extractOk] } := by
    simp [unpack_comic_with_calibre, tempScope, hne]
  have hr : out.result = some (outputDirOf mobi) := by rw [hout, hrec]
  have hw : out.writes = (extractLoop es
      (sortedNames ((namelist es).filter (fun f => isImageName f))) 1 fs0).2 := by
    rw [hout, hrec]
  have hw2 : out.writes =
      seqWrites es (sortedNames ((namelist es).filter (fun f => isImageName f))) 1 :=
    hw.trans (extractLoop_snd es _ 1 fs0)
  have hlen : (sortedNames ((namelist es).filter (fun f => isImageName f))).length
      = ((namelist es).filter (fun f => isImageName f)).length :=
    (List.perm_insertionSort strLeProp _).length_eq
  refine ⟨hr, hw2, ?_, List.perm_insertionSort strLeProp _,
    List.sorted_insertionSort strLeProp _, ?_⟩
  · rw [hw2, seqWrites_length]
    exact hlen
  · intro i hi
    rw [hw2] at hi ⊢
    rw [seqWrites_length] at hi
    rw [seqWrites_getD es _ 1 i hi, Nat.add_comm 1 i]

/-- C1 witness: a three-entry archive (two images in mixed case, one
non-image) yields exactly the two writes `0001.png`, `0002.JPG`, assigned
in sorted order of the original names. -/
theorem unpack_writes_sorted_numbered_images_witness :
    (unpack_comic_with_calibre
        ⟨true, true, ConvertOutcome.zip
          [⟨"b.JPG", [1]⟩, ⟨"a.png", [2]⟩, ⟨"n.txt", [3]⟩]⟩
        ["d", "book.mobi"] false []).writes
      = [("0001.png", [2]), ("0002.JPG", [1])] := by
  have h := unpack_writes_sorted_numbered_images
    [⟨"b.JPG", [1]⟩, ⟨"a.png", [2]⟩, ⟨"n.txt", [3]⟩] ["d", "book.mobi"] false []
    _ _ rfl (by decide) rfl
  exact h.2.1.trans (by decide)

/-- C4: on every exit path of the unpack step (missing converter, directory
creation failure, conversion failure, malformed archive, zero matching
entries, success) the scoped temporary directory and the intermediate
`converted.zip` inside it no longer exist after the step returns. -/
theorem unpack_temp_always_cleaned (env : UnpackEnv) (mobi : PyPath)
    (d0 : Bool) (fs0 : FS) :
    (unpack_comic_with_calibre env mobi d0 fs0).tempFiles = [] := by
  rcases env with ⟨e, m, conv⟩
  cases e <;> cases m <;> cases conv <;>
    simp [unpack_comic_with_calibre, tempScope]

/-- C5: if the intermediate archive has no entries matching the recognized
image extensions, the unpack step prints the warning, returns no result and
writes nothing into the output directory. -/
theorem unpack_zero_matches_fails (es : List ZipEntry) (mobi : PyPath)
    (d0 : Bool) (fs0 : FS) (out : UnpackOutput)
    (hz : (namelist es).filter (fun f => isImageName f) = [])
    (hout : out = unpack_comic_with_calibre ⟨true, true, ConvertOutcome.zip es⟩ mobi d0 fs0) :
    out.result = none ∧
    Msg.noImagesWarning ∈ out.messages ∧
    out.outDir = fs0 ∧
    out.writes = [] := by
  rw [hout]
  simp [unpack_comic_with_calibre, tempScope, hz]

/-- C5 witness: an archive holding a single text entry triggers the
zero-matches failure and leaves the output directory untouched. -/
theorem unpack_zero_matches_fails_witness :
    (unpack_comic_with_calibre ⟨true, true, ConvertOutcome.zip [⟨"n.txt", [3]⟩]⟩
        ["d", "book.mobi"] true [("old.png", [7])]).result = none ∧
    Msg.noImagesWarning ∈ (unpack_comic_with_calibre
        ⟨true, true, ConvertOutcome.zip [⟨"n.txt", [3]⟩]⟩
        ["d", "book.mobi"] true [("old.png", [7])]).messages ∧
    (unpack_comic_with_calibre ⟨true, true, ConvertOutcome.zip [⟨"n.txt", [3]⟩]⟩
        ["d", "book.mobi"] true [("old.png", [7])]).outDir = [("old.png", [7])] ∧
    (unpack_comic_with_calibre ⟨true, true, ConvertOutcome.zip [⟨"n.txt", [3]⟩]⟩
        ["d", "book.mobi"] true [("old.png", [7])]).writes = [] :=
  unpack_zero_matches_fails [⟨"n.txt", [3]⟩] ["d", "book.mobi"] true [("old.png", [7])]
    _ (by decide) rfl

/-- C6: if the artifact left by the conversion tool is not a valid zip
container (`zipfile.BadZipFile`), the unpack step reports the error and
returns no result; the exception is caught, so nothing propagates and no
file is written. -/
theorem unpack_bad_zip_fails (mobi : PyPath) (d0 : Bool) (fs0 : FS) (out : UnpackOutput)
    (hout : out = unpack_comic_with_calibre ⟨true, true, ConvertOutcome.badZip⟩ mobi d0 fs0) :
    out.result = none ∧
    Msg.badZipError ∈ out.messages ∧
    out.outDir = fs0 ∧
    out.writes = [] := by
  rw [hout]
  simp [unpack_comic_with_calibre, tempScope]

/-- C6 witness: the malformed-archive outcome at a concrete input. -/
theorem unpack_bad_zip_fails_witness :
    (unpack_comic_with_calibre ⟨true, true, ConvertOutcome.badZip⟩
        ["d", "book.mobi"] false []).result = none ∧
    Msg.badZipError ∈ (unpack_comic_with_calibre ⟨true, true, ConvertOutcome.badZip⟩
        ["d", "book.mobi"] false []).messages ∧
    (unpack_comic_with_calibre ⟨true, true, ConvertOutcome.badZip⟩
        ["d", "book.mobi"] false []).outDir = [] ∧
    (unpack_comic_with_calibre ⟨true, true, ConvertOutcome.badZip⟩
        ["d", "book.mobi"] false []).writes = [] :=
  unpack_bad_zip_fails ["d", "book.mobi"] false [] _ rfl

/-- C10: when the converter is on the PATH and directory creation succeeds,
the output directory exists after the step on every outcome (it is created
before the conversion tool is invoked and never removed), and every
pre-existing file whose name is not among the newly written sequence names
is still present, with its original contents, afterwards. -/
theorem unpack_output_dir_persists (env : UnpackEnv) (mobi : PyPath)
    (d0 : Bool) (fs0 : FS) (out : UnpackOutput)
    (hT : env.ebookConvertOnPath = true) (hM : env.mkdirOk = true)
    (hout : out = unpack_comic_with_calibre env mobi d0 fs0) :
    out.outDirExists = true ∧
    ∀ n d, (n, d) ∈ fs0 → n ∉ out.writes.map Prod.fst → (n, d) ∈ out.outDir := by
  rcases env with ⟨e, m, conv⟩
  cases hT
  cases hM
  rw [hout]
  cases conv with
  | fail => simp [unpack_comic_with_calibre, tempScope]
  | badZip => simp [unpack_comic_with_calibre, tempScope]
  | zip es =>
    by_cases hz : ((namelist es).filter (fun f => isImageName f)).isEmpty
    · simp [unpack_comic_with_calibre, tempScope, hz]
    · have hz' : ((namelist es).filter (fun f => isImageName f)).isEmpty = false := by
        simpa using hz
      have hrec : unpack_comic_with_calibre ⟨true, true, ConvertOutcome.zip es⟩ mobi d0 fs0 =
          { result := some (outputDirOf mobi), outDirExists := true,
            outDir := (extractLoop es
              (sortedNames ((namelist es).filter (fun f => isImageName f))) 1 fs0).1,
            tempFiles := [],
            writes := (extractLoop es
              (sortedNames ((namelist es).filter (fun f => isImageName f))) 1 fs0).2,
            messages := [Msg.outputDirCreated, Msg.callingCalibre, Msg.calibreOk,
                         Msg.extracting, Msg.extractOk] } := by
        simp [unpack_comic_with_calibre, tempScope, hz']
      rw [hrec]
      exact ⟨rfl, fun n d hmem hnot => extractLoop_preserves es _ 1 fs0 n d hmem hnot⟩

/-- C10 witness: a conversion-tool failure after directory creation leaves
the directory in place with its pre-existing file intact. -/
theorem unpack_output_dir_persists_witness :
    (unpack_comic_with_calibre ⟨true, true, ConvertOutcome.fail⟩
        ["d", "book.mobi"] false [("keep.txt", [9])]).outDirExists = true ∧
    ("keep.txt", [9]) ∈ (unpack_comic_with_calibre ⟨true, true, ConvertOutcome.fail⟩
        ["d", "book.mobi"] false [("keep.txt", [9])]).outDir := by
  have h := unpack_output_dir_persists ⟨true, true, ConvertOutcome.fail⟩
    ["d", "book.mobi"] false [("keep.txt", [9])] _ rfl rfl rfl
  exact ⟨h.1, h.2 "keep.txt" [9] (by decide) (by decide)⟩

/-- C2: whenever the co-located KCC executable is found, the repack step
invokes the external packer with exactly the argument list
`-p <profile> -m --manga-style -t <title> -o <parent> <folder>`, where the
title is the image folder's base name and the output location its parent
directory, regardless of how the subprocess then fares. -/
theorem repack_invokes_kcc_fixed_args (env : RepackEnv) (image_folder_path : PyPath)
    (hk : env.isFileProbe (pstr (kccPathOf env)) = true) :
    (repack_with_kcc env image_folder_path).invoked =
      some [pstr (kccPathOf env),
            "-p", KCC_DEVICE_PROFILE,
            "-m",
            "--manga-style",
            "-t", pname image_folder_path,
            "-o", pstr (pparent image_folder_path),
            pstr image_folder_path] := by
  unfold repack_with_kcc
  rw [hk]
  cases env.run <;> simp <;> split <;> rfl

/-- C2 witness: concrete script directory `s` and folder `d/book` produce
the exact packer command. -/
theorem repack_invokes_kcc_fixed_args_witness :
    (repack_with_kcc ⟨["s"], fun _ => true, KccRunOutcome.success, fun _ => false⟩
        ["d", "book"]).invoked =
      some ["s/kcc-c2e.exe", "-p", "KPW5", "-m", "--manga-style",
            "-t", "book", "-o", "d", "d/book"] :=
  (repack_invokes_kcc_fixed_args
    ⟨["s"], fun _ => true, KccRunOutcome.success, fun _ => false⟩ ["d", "book"]
    rfl).trans (by decide)

/-- C7: when the external conversion executable is not on the PATH, that
file's unpack step prints the fatal diagnostic and yields no result (so no
repack is attempted), while the main loop still produces one report per
input file, each computed independently from its own context. -/
theorem missing_converter_fatal_loop_continues (files : List FileCtx) (i : Nat)
    (hi : i < files.length)
    (henv : (files.get ⟨i, hi⟩).uenv.ebookConvertOnPath = false) :
    (processFile (files.get ⟨i, hi⟩)).unpackOut.result = none ∧
    Msg.fatalNoEbookConvert ∈ (processFile (files.get ⟨i, hi⟩)).unpackOut.messages ∧
    (processFile (files.get ⟨i, hi⟩)).repackOut = none ∧
    (mainLoop files).length = files.length ∧
    ∀ j (hj : j < files.length),
      (mainLoop files)[j]? = some (processFile (files.get ⟨j, hj⟩)) := by
  have hu : unpack_comic_with_calibre (files.get ⟨i, hi⟩).uenv (files.get ⟨i, hi⟩).path
      (files.get ⟨i, hi⟩).dirExists0 (files.get ⟨i, hi⟩).fs0 =
      { result := none, outDirExists := (files.get ⟨i, hi⟩).dirExists0,
        outDir := (files.get ⟨i, hi⟩).fs0, tempFiles := [],
        writes := [], messages := [Msg.fatalNoEbookConvert] } := by
    rw [unpack_comic_with_calibre, henv]
    simp
  simp only [List.get_eq_getElem] at hu ⊢
  refine ⟨?_, ?_, ?_, by simp [mainLoop], ?_⟩
  · simp [processFile, hu]
  · simp [processFile, hu]
  · simp [processFile, hu]
  · intro j hj
    simp [mainLoop, List.getElem?_map, List.getElem?_eq_getElem hj]

/-- C7 witness: a two-file batch whose first file lacks the converter still
reports on both files. -/
theorem missing_converter_fatal_loop_continues_witness :
    (processFile (([⟨["a.mobi"], ⟨false, true, ConvertOutcome.fail⟩, false, [],
          ⟨["s"], fun _ => false, KccRunOutcome.success, fun _ => false⟩⟩,
        ⟨["b.mobi"], ⟨true, true, ConvertOutcome.badZip⟩, false, [],
          ⟨["s"], fun _ => false, KccRunOutcome.success, fun _ => false⟩⟩] :
        List FileCtx).get ⟨0, by decide⟩)).unpackOut.result = none ∧
    (mainLoop [⟨["a.mobi"], ⟨false, true, ConvertOutcome.fail⟩, false, [],
          ⟨["s"], fun _ => false, KccRunOutcome.success, fun _ => false⟩⟩,
        ⟨["b.mobi"], ⟨true, true, ConvertOutcome.badZip⟩, false, [],
          ⟨["s"], fun _ => false, KccRunOutcome.success, fun _ => false⟩⟩]).length = 2 := by
  have h := missing_converter_fatal_loop_continues
    [⟨["a.mobi"], ⟨false, true, ConvertOutcome.fail⟩, false, [],
        ⟨["s"], fun _ => false, KccRunOutcome.success, fun _ => false⟩⟩,
      ⟨["b.mobi"], ⟨true, true, ConvertOutcome.badZip⟩, false, [],
        ⟨["s"], fun _ => false, KccRunOutcome.success, fun _ => false⟩⟩]
    0 (by decide) rfl
  exact ⟨h.1, h.2.2.2.1⟩

/-- C8: when the KCC executable is not co-located with the script, the
repack step prints the fatal diagnostic and returns without ever invoking
the packer; the unpack result recorded for the file is exactly the unpack
step's output, and the loop over the remaining files is unaffected. -/
theorem missing_kcc_skips_packer_run_continues (c : FileCtx) (folder : PyPath)
    (rest : List FileCtx)
    (hk : c.renv.isFileProbe (pstr (kccPathOf c.renv)) = false)
    (hu : (unpack_comic_with_calibre c.uenv c.path c.dirExists0 c.fs0).result = some folder) :
    (repack_with_kcc c.renv folder).invoked = none ∧
    Msg.fatalNoKcc ∈ (repack_with_kcc c.renv folder).messages ∧
    (processFile c).unpackOut = unpack_comic_with_calibre c.uenv c.path c.dirExists0 c.fs0 ∧
    (processFile c).repackOut = some (repack_with_kcc c.renv folder) ∧
    mainLoop (c :: rest) = processFile c :: mainLoop rest := by
  have hrep : repack_with_kcc c.renv folder =
      { invoked := none, messages := [Msg.repackHeader, Msg.fatalNoKcc] } := by
    rw [repack_with_kcc, hk]
    simp
  refine ⟨by rw [hrep], by rw [hrep]; simp, ?_, ?_, by simp [mainLoop]⟩
  · simp [processFile, hu, REPACK_AFTER_UNPACK]
  · simp [processFile, hu, REPACK_AFTER_UNPACK]

/-- C8 witness: a successful unpack followed by a missing KCC executable. -/
theorem missing_kcc_skips_packer_run_continues_witness :
    (repack_with_kcc
        ⟨["s"], fun _ => false, KccRunOutcome.success, fun _ => false⟩
        ["d", "book"]).invoked = none ∧
    (processFile ⟨["d", "book.mobi"],
        ⟨true, true, ConvertOutcome.zip [⟨"a.png", [2]⟩]⟩, false, [],
        ⟨["s"], fun _ => false, KccRunOutcome.success, fun _ => false⟩⟩).repackOut =
      some (repack_with_kcc
        ⟨["s"], fun _ => false, KccRunOutcome.success, fun _ => false⟩
        ["d", "book"]) := by
  have h := missing_kcc_skips_packer_run_continues
    ⟨["d", "book.mobi"], ⟨true, true, ConvertOutcome.zip [⟨"a.png", [2]⟩]⟩, false, [],
      ⟨["s"], fun _ => false, KccRunOutcome.success, fun _ => false⟩⟩
    ["d", "book"] [] rfl (by decide)
  exact ⟨h.1, h.2.2.2.1⟩

/-- C9: after a packer run that returns normally, the repack step probes for
`<title>.mobi` in the image folder's parent; when that file is absent the
step ends with the missing-output warning as its final message — the packer
was invoked, no error diagnostic is produced, and nothing is raised or
rolled back. -/
theorem repack_missing_output_warns_only (env : RepackEnv) (image_folder_path : PyPath)
    (hk : env.isFileProbe (pstr (kccPathOf env)) = true)
    (hr : env.run = KccRunOutcome.success)
    (hf : env.existsProbe
        (pstr (pparent image_folder_path ++ [pname image_folder_path ++ ".mobi"])) = false) :
    (repack_with_kcc env image_folder_path).invoked.isSome = true ∧
    (repack_with_kcc env image_folder_path).messages =
      [Msg.repackHeader, Msg.kccDetected, Msg.kccMissingOutputWarning] := by
  rw [repack_with_kcc, hk, hr]
  simp [hf]

/-- C9 witness: a successful packer run whose expected `book.mobi` is
absent from the parent directory `d`. -/
theorem repack_missing_output_warns_only_witness :
    (repack_with_kcc ⟨["s"], fun _ => true, KccRunOutcome.success, fun _ => false⟩
        ["d", "book"]).invoked.isSome = true ∧
    (repack_with_kcc ⟨["s"], fun _ => true, KccRunOutcome.success, fun _ => false⟩
        ["d", "book"]).messages =
      [Msg.repackHeader, Msg.kccDetected, Msg.kccMissingOutputWarning] :=
  repack_missing_output_warns_only
    ⟨["s"], fun _ => true, KccRunOutcome.success, fun _ => false⟩ ["d", "book"]
    rfl rfl rfl

/-- C3 counterexample: the claim says every foreseeable failure is converted
to a printed diagnostic, but when creating the output directory raises
`OSError` (a failure the code itself foresees and catches at lines 100-104)
the unpack step returns no result and prints nothing at all. -/
theorem mkdir_failure_fails_silently :
    (unpack_comic_with_calibre ⟨true, false, ConvertOutcome.fail⟩
        ["d", "book.mobi"] false []).result = none ∧
    (unpack_comic_with_calibre ⟨true, false, ConvertOutcome.fail⟩
        ["d", "book.mobi"] false []).messages = [] := by
  decide

/-- C3 (amended): a failure while processing one file never aborts the
others — the loop over three files always yields the three independent
per-file reports, and a file whose unpack fails gets no repack; moreover
every caught failure except an output-directory-creation error leaves a
printed diagnostic. -/
theorem batch_isolates_failures (a b c : FileCtx)
    (hb : (unpack_comic_with_calibre b.uenv b.path b.dirExists0 b.fs0).result = none) :
    mainLoop [a, b, c] = [processFile a, processFile b, processFile c] ∧
    (processFile b).repackOut = none ∧
    ∀ env p d0 f0, (unpack_comic_with_calibre env p d0 f0).result = none →
      env.mkdirOk = false ∨ (unpack_comic_with_calibre env p d0 f0).messages ≠ [] := by
  refine ⟨rfl, by simp [processFile, hb], ?_⟩
  intro env p d0 f0 hfail
  rcases env with ⟨e, m, conv⟩
  cases e with
  | false => right; simp [unpack_comic_with_calibre]
  | true =>
    cases m with
    | false => left; rfl
    | true =>
      right
      cases conv with
      | fail => simp [unpack_comic_with_calibre, tempScope]
      | badZip => simp [unpack_comic_with_calibre, tempScope]
      | zip es =>
        by_cases hz : ((namelist es).filter (fun f => isImageName f)).isEmpty
        · simp [unpack_comic_with_calibre, tempScope, hz]
        · have hz' : ((namelist es).filter (fun f => isImageName f)).isEmpty = false := by
            simpa using hz
          rw [unpack_comic_with_calibre] at hfail
          simp [tempScope, hz'] at hfail

/-- C3 witness: a concrete three-file batch whose middle file fails to
unpack (malformed archive) still reports on all three files in order. -/
theorem batch_isolates_failures_witness :
    mainLoop [⟨["a.mobi"], ⟨true, true, ConvertOutcome.zip [⟨"a.png", [2]⟩]⟩, false, [],
          ⟨["s"], fun _ => false, KccRunOutcome.success, fun _ => false⟩⟩,
        ⟨["b.mobi"], ⟨true, true, ConvertOutcome.badZip⟩, false, [],
          ⟨["s"], fun _ => false, KccRunOutcome.success, fun _ => false⟩⟩,
        ⟨["c.mobi"], ⟨true, true, ConvertOutcome.fail⟩, false, [],
          ⟨["s"], fun _ => false, KccRunOutcome.success, fun _ => false⟩⟩] =
      [processFile ⟨["a.mobi"], ⟨true, true, ConvertOutcome.zip [⟨"a.png", [2]⟩]⟩, false, [],
          ⟨["s"], fun _ => false, KccRunOutcome.success, fun _ => false⟩⟩,
        processFile ⟨["b.mobi"], ⟨true, true, ConvertOutcome.badZip⟩, false, [],
          ⟨["s"], fun _ => false, KccRunOutcome.success, fun _ => false⟩⟩,
        processFile ⟨["c.mobi"], ⟨true, true, ConvertOutcome.fail⟩, false, [],
          ⟨["s"], fun _ => false, KccRunOutcome.success, fun _ => false⟩⟩] ∧
    (processFile ⟨["b.mobi"], ⟨true, true, ConvertOutcome.badZip⟩, false, [],
        ⟨["s"], fun _ => false, KccRunOutcome.success, fun _ => false⟩⟩).repackOut = none := by
  have h := batch_isolates_failures
    ⟨["a.mobi"], ⟨true, true, ConvertOutcome.zip [⟨"a.png", [2]⟩]⟩, false, [],
      ⟨["s"], fun _ => false, KccRunOutcome.success, fun _ => false⟩⟩
    ⟨["b.mobi"], ⟨true, true, ConvertOutcome.badZip⟩, false, [],
      ⟨["s"], fun _ => false, KccRunOutcome.success, fun _ => false⟩⟩
    ⟨["c.mobi"], ⟨true, true, ConvertOutcome.fail⟩, false, [],
      ⟨["s"], fun _ => false, KccRunOutcome.success, fun _ => false⟩⟩
    (by decide)
  exact ⟨h.1, h.2.1⟩

end MzyRepack
